import Mathlib

/-
  Verification development for the nut.js screen orchestration engine
  (screen.class.ts and its collaborators).

  The embedding models JavaScript numbers as finite numbers plus NaN,
  provider calls as environment lookups returning Except results, and
  records every provider and hook invocation in an event trace so that
  call-order properties can be stated and proved.
-/

deriving instance DecidableEq for Except

namespace NutJs

/-- A JavaScript number as used by the screen engine: a finite number or NaN.
Comparisons against NaN are false and arithmetic with NaN yields NaN,
mirroring IEEE semantics for the operations the source uses (the finite
values are kept on the integer grid, where doubles are exact). -/
inductive JsNum where
  | nan : JsNum
  | num : ℤ → JsNum
deriving DecidableEq

instance (n : Nat) : OfNat JsNum n := ⟨JsNum.num n⟩

/-- JavaScript strict less-than: false whenever either side is NaN. -/
def JsNum.lt : JsNum → JsNum → Bool
  | .num a, .num b => decide (a < b)
  | _, _ => false

/-- JavaScript strict greater-than: false whenever either side is NaN. -/
def JsNum.gt : JsNum → JsNum → Bool
  | .num a, .num b => decide (b < a)
  | _, _ => false

/-- JavaScript addition: NaN absorbs. -/
def JsNum.add : JsNum → JsNum → JsNum
  | .num a, .num b => .num (a + b)
  | _, _ => .nan

/-- The isNaN test used by validateSearchRegion. -/
def JsNum.isNaN : JsNum → Bool
  | .nan => true
  | .num _ => false

/-- Rendering of a JsNum inside diagnostic messages. -/
def JsNum.render : JsNum → String
  | .nan => "NaN"
  | .num q => toString q

/-- Modelled from the spec: region.class.ts is not under src. A Region is the
record of left, top, width and height components used throughout the engine. -/
structure Region where
  left : JsNum
  top : JsNum
  width : JsNum
  height : JsNum
deriving DecidableEq

/-- Modelled from the spec: the string form of a Region used in diagnostics. -/
def Region.render (r : Region) : String :=
  "(" ++ r.left.render ++ ", " ++ r.top.render ++ ", " ++ r.width.render ++ ", "
    ++ r.height.render ++ ")"

/-- Modelled from the spec: image.class.ts is not under src. Only identity and
dimensions matter to the orchestration logic. -/
structure Image where
  id : String
  width : JsNum
  height : JsNum
deriving DecidableEq

/-- A region-result needle (template image or text query). The oid field
models JavaScript object identity, which is what the Map used for the hook
registry keys on; id is the diagnostic identifier used in error messages. -/
structure FindInput where
  oid : Nat
  id : String
deriving DecidableEq

/-- Modelled from the spec: match-result.class.ts is not under src. A match
result carries a confidence score and a location relative to the haystack. -/
structure MatchResult where
  confidence : JsNum
  location : Region
deriving DecidableEq

/-- Modelled from the spec: match-request.class.ts is not under src. A match
request bundles the haystack image, the needle and the required confidence. -/
structure MatchRequest where
  haystack : Image
  needle : FindInput
  confidence : JsNum
deriving DecidableEq

/-- Modelled from the spec: createMatchRequest builds the request handed to the
finder provider from the needle, search region, confidence and screen image. -/
def createMatchRequest (needle : FindInput) (_searchRegion : Region)
    (minMatch : JsNum) (screenImage : Image) : MatchRequest :=
  ⟨screenImage, needle, minMatch⟩

/-- validateSearchRegion from screen.class.ts: rejects regions with negative
components, NaN components, width or height below two pixels, or regions
extending beyond the screen boundaries. -/
def validateSearchRegion (search : Region) (screen : Region) : Except String Unit :=
  if search.left.lt 0 || search.top.lt 0 || search.width.lt 0 || search.height.lt 0 then
    .error ("Negative values in search region " ++ search.render)
  else if search.left.isNaN || search.top.isNaN || search.width.isNaN || search.height.isNaN then
    .error ("NaN values in search region " ++ search.render)
  else if search.width.lt 2 || search.height.lt 2 then
    .error ("Search region " ++ search.render ++
      " is not large enough. Must be at least two pixels in both width and height.")
  else if (search.left.add search.width).gt screen.width
      || (search.top.add search.height).gt screen.height then
    .error ("Search region " ++ search.render ++ " extends beyond screen boundaries ("
      ++ screen.width.render ++ "x" ++ screen.height.render ++ ")")
  else
    .ok ()

/-- A find hook: the registered callback together with a numeric tag used to
record its invocations in the event trace. Callbacks may reject. -/
structure Hook where
  hid : Nat
  run : MatchResult → Except String Unit

/-- Observable provider and hook invocations, in the order they happen. -/
inductive Event where
  | screenSizeCall : Event
  | grabScreenRegionCall : Region → Event
  | grabScreenCall : Event
  | findMatchCall : MatchRequest → Event
  | findMatchesCall : MatchRequest → Event
  | hookCall : Nat → MatchResult → Event
  | highlightCall : Region → JsNum → JsNum → Event
  | storeCall : String → Event
deriving DecidableEq

/-- The provider registry as seen by the screen engine: each capability is a
possibly-failing lookup. -/
structure Env where
  screenSize : Except String Region
  grabScreenRegion : Region → Except String Image
  findMatch : MatchRequest → Except String MatchResult
  findMatches : MatchRequest → Except String (List MatchResult)
  highlightScreenRegion : Region → JsNum → JsNum → Except String Unit
  grabScreen : Except String Image
  store : Image → String → Except String Unit

/-- The config object of ScreenClass. -/
structure ScreenConfig where
  confidence : JsNum
  autoHighlight : Bool
  highlightDurationMs : JsNum
  highlightOpacity : JsNum
  resourceDirectory : String

/-- OptionalSearchParameters: the per-call overrides accepted by find/findAll. -/
structure OptionalSearchParameters where
  confidence : Option JsNum
  searchRegion : Option Region

/-- The hook registry: the Map from needle to callback list held by
ScreenClass. Keys compare by object identity (the oid field). -/
abbrev FindHooks := List (FindInput × List Hook)

/-- Map.get on the hook registry: lookup by object identity of the needle. -/
def lookupHooks : FindHooks → FindInput → Option (List Hook)
  | [], _ => none
  | e :: rest, needle => if e.1.oid == needle.oid then some e.2 else lookupHooks rest needle

/-- Map.set on the hook registry: replace the entry for the key if present,
append a fresh entry otherwise. -/
def setHooks : FindHooks → FindInput → List Hook → FindHooks
  | [], needle, hs => [(needle, hs)]
  | e :: rest, needle, hs =>
    if e.1.oid == needle.oid then (needle, hs) :: rest
    else e :: setHooks rest needle hs

/-- ScreenClass.on: append the callback to the list registered for the needle
(an absent entry counts as the empty list). -/
def «on» (st : FindHooks) (searchInput : FindInput) (callback : Hook) : FindHooks :=
  let existingHooks := (lookupHooks st searchInput).getD []
  setHooks st searchInput (existingHooks ++ [callback])

/-- A sequence of ScreenClass.on registrations for the same needle. -/
def registerAll (st : FindHooks) (needle : FindInput) (cbs : List Hook) : FindHooks :=
  cbs.foldl (fun s cb => «on» s needle cb) st

/-- ScreenClass.getHooksForInput: the raw Map lookup, undefined when absent. -/
def getHooksForInput (st : FindHooks) (input : FindInput) : Option (List Hook) :=
  lookupHooks st input

/-- The effective minimum confidence: the per-call override or the config value. -/
def effectiveConfidence (params : Option OptionalSearchParameters)
    (cfg : ScreenConfig) : JsNum :=
  ((params.bind fun p => p.confidence).getD cfg.confidence)

/-- The effective search region: the per-call override or the whole screen. -/
def effectiveSearchRegion (params : Option OptionalSearchParameters)
    (screenSize : Region) : Region :=
  ((params.bind fun p => p.searchRegion).getD screenSize)

/-- The bundle produced by ScreenClass.getFindParameters. -/
structure FindParameters where
  minMatch : JsNum
  screenSize : Region
  searchRegion : Region
  screenImage : Image

/-- ScreenClass.getFindParameters: resolve the confidence, query the screen
size, resolve the search region and grab its image; the screen provider calls
are recorded in the trace in the order they are issued. -/
def getFindParameters (env : Env) (cfg : ScreenConfig)
    (params : Option OptionalSearchParameters) :
    Except String FindParameters × List Event :=
  let minMatch := effectiveConfidence params cfg
  match env.screenSize with
  | .error e => (.error e, [.screenSizeCall])
  | .ok screenSize =>
    let searchRegion := effectiveSearchRegion params screenSize
    match env.grabScreenRegion searchRegion with
    | .error e => (.error e, [.screenSizeCall, .grabScreenRegionCall searchRegion])
    | .ok screenImage =>
      (.ok ⟨minMatch, screenSize, searchRegion, screenImage⟩,
        [.screenSizeCall, .grabScreenRegionCall searchRegion])

/-- Modelled from the spec: match-result.class.ts is not under src; the single
match lookup dispatches the request to the finder provider. -/
def getMatchResult (env : Env) (request : MatchRequest) :
    Except String MatchResult × List Event :=
  (env.findMatch request, [.findMatchCall request])

/-- Modelled from the spec: the multi match lookup dispatches the request to
the finder provider. -/
def getMatchResults (env : Env) (request : MatchRequest) :
    Except String (List MatchResult) × List Event :=
  (env.findMatches request, [.findMatchesCall request])

/-- The hook loop of find: invoke each registered hook in order, awaiting each;
a rejection stops the loop and propagates. Every started invocation is traced. -/
def runHooks : List Hook → MatchResult → Except String Unit × List Event
  | [], _ => (.ok (), [])
  | h :: rest, mr =>
    match h.run mr with
    | .error e => (.error e, [.hookCall h.hid mr])
    | .ok _ =>
      let (r, t) := runHooks rest mr
      (r, .hookCall h.hid mr :: t)

/-- The inner loop of the findAll hook phase: one hook over every result. -/
def runHookOnEach (h : Hook) : List MatchResult → Except String Unit × List Event
  | [] => (.ok (), [])
  | mr :: rest =>
    match h.run mr with
    | .error e => (.error e, [.hookCall h.hid mr])
    | .ok _ =>
      let (r, t) := runHookOnEach h rest
      (r, .hookCall h.hid mr :: t)

/-- The hook loop of findAll: every hook is invoked once per match result,
hooks in registration order, results in provider order. -/
def runHooksAll : List Hook → List MatchResult → Except String Unit × List Event
  | [], _ => (.ok (), [])
  | h :: rest, mrs =>
    match runHookOnEach h mrs with
    | (.error e, t) => (.error e, t)
    | (.ok _, t) =>
      let (r, t2) := runHooksAll rest mrs
      (r, t ++ t2)

/-- The result-offset translation of find and findAll: the match location is
shifted by the search region origin, width and height kept. -/
def translateLocation (searchRegion : Region) (matchResult : MatchResult) : Region :=
  ⟨searchRegion.left.add matchResult.location.left,
    searchRegion.top.add matchResult.location.top,
    matchResult.location.width,
    matchResult.location.height⟩

/-- ScreenClass.highlight on a resolved Region: ask the screen provider for an
overlay with the configured duration and opacity, then return the region. -/
def highlight (env : Env) (cfg : ScreenConfig) (regionToHighlight : Region) :
    Except String Region × List Event :=
  match env.highlightScreenRegion regionToHighlight
      cfg.highlightDurationMs cfg.highlightOpacity with
  | .error e =>
    (.error e,
      [.highlightCall regionToHighlight cfg.highlightDurationMs cfg.highlightOpacity])
  | .ok _ =>
    (.ok regionToHighlight,
      [.highlightCall regionToHighlight cfg.highlightDurationMs cfg.highlightOpacity])

/-- The uniform error wrapper of the catch blocks in find and findAll. -/
def searchFailedMessage (needleId : String) (cause : String) : String :=
  "Searching for " ++ needleId ++ " failed. Reason: '" ++ cause ++ "'"

/-- The part of the try block of ScreenClass.find whose failures the catch
catches: resolve the find parameters, build the match request, validate the
search region, query the finder, run the hooks, translate the location. The
auto-highlight step is NOT here: the source returns the highlight promise
from inside the try without awaiting it, so a highlight rejection is adopted
only after the try/catch frame has exited and never reaches the catch. -/
def findBody (env : Env) (cfg : ScreenConfig) (st : FindHooks)
    (needle : FindInput) (params : Option OptionalSearchParameters) :
    Except String Region × List Event :=
  match getFindParameters env cfg params with
  | (.error e, t) => (.error e, t)
  | (.ok fp, t) =>
    let matchRequest := createMatchRequest needle fp.searchRegion fp.minMatch fp.screenImage
    match validateSearchRegion fp.searchRegion fp.screenSize with
    | .error e => (.error e, t)
    | .ok _ =>
      match getMatchResult env matchRequest with
      | (.error e, t2) => (.error e, t ++ t2)
      | (.ok matchResult, t2) =>
        let possibleHooks := (getHooksForInput st needle).getD []
        match runHooks possibleHooks matchResult with
        | (.error e, t3) => (.error e, t ++ t2 ++ t3)
        | (.ok _, t3) =>
          let resultRegion := translateLocation fp.searchRegion matchResult
          (.ok resultRegion, t ++ t2 ++ t3)

/-- ScreenClass.find: the catch wraps every failure raised inside the try as
the uniform error carrying the needle id and the cause; but with
autoHighlight enabled the call returns the un-awaited highlight promise from
inside the try, so the highlight outcome (success or raw rejection) is
delivered to the caller outside the catch, unwrapped. -/
def find (env : Env) (cfg : ScreenConfig) (st : FindHooks)
    (needle : FindInput) (params : Option OptionalSearchParameters) :
    Except String Region × List Event :=
  match findBody env cfg st needle params with
  | (.error e, t) => (.error (searchFailedMessage needle.id e), t)
  | (.ok resultRegion, t) =>
    if cfg.autoHighlight then
      match highlight env cfg resultRegion with
      | (res, t4) => (res, t ++ t4)
    else
      (.ok resultRegion, t)

/-- The try block of ScreenClass.findAll for region-result needles. When
auto-highlight is enabled the highlights are issued without being awaited, so
their outcomes are discarded while their provider calls still appear. -/
def findAllBody (env : Env) (cfg : ScreenConfig) (st : FindHooks)
    (needle : FindInput) (params : Option OptionalSearchParameters) :
    Except String (List Region) × List Event :=
  match getFindParameters env cfg params with
  | (.error e, t) => (.error e, t)
  | (.ok fp, t) =>
    let matchRequest := createMatchRequest needle fp.searchRegion fp.minMatch fp.screenImage
    match validateSearchRegion fp.searchRegion fp.screenSize with
    | .error e => (.error e, t)
    | .ok _ =>
      match getMatchResults env matchRequest with
      | (.error e, t2) => (.error e, t ++ t2)
      | (.ok matchResults, t2) =>
        let possibleHooks := (getHooksForInput st needle).getD []
        match runHooksAll possibleHooks matchResults with
        | (.error e, t3) => (.error e, t ++ t2 ++ t3)
        | (.ok _, t3) =>
          let resultRegions := matchResults.map (translateLocation fp.searchRegion)
          if cfg.autoHighlight then
            (.ok resultRegions,
              t ++ t2 ++ t3 ++ (resultRegions.map fun r => (highlight env cfg r).2).flatten)
          else
            (.ok resultRegions, t ++ t2 ++ t3)

/-- ScreenClass.findAll: the try block with its uniform catch wrapper. -/
def findAll (env : Env) (cfg : ScreenConfig) (st : FindHooks)
    (needle : FindInput) (params : Option OptionalSearchParameters) :
    Except String (List Region) × List Event :=
  match findAllBody env cfg st needle params with
  | (.ok rs, t) => (.ok rs, t)
  | (.error e, t) => (.error (searchFailedMessage needle.id e), t)

/-- Modelled from the spec: path.join of the output directory and file name. -/
def join (dir : String) (file : String) : String :=
  dir ++ "/" ++ file

/-- The screenshot file formats. -/
inductive FileType where
  | png : FileType
  | jpg : FileType
deriving DecidableEq

/-- The file extension written for each format. -/
def fileTypeExt : FileType → String
  | .png => "png"
  | .jpg => "jpg"

/-- Modelled from the spec: generate-output-path.function.ts is not under src;
the spec states the deterministic pattern path/prefixNamePostfix.format for
the generated output path. -/
def generateOutputPath (fileName : String) (filePath : String)
    (pre : String) (post : String) (fileFormat : FileType) : String :=
  join filePath (pre ++ fileName ++ post ++ "." ++ fileTypeExt fileFormat)

/-- ScreenClass.saveImage: generate the output path, hand the image to the
image writer, and return the path. -/
def saveImage (env : Env) (image : Image) (fileName : String)
    (fileFormat : FileType) (filePath : String) (pre : String) (post : String) :
    Except String String × List Event :=
  let outputPath := generateOutputPath fileName filePath pre post fileFormat
  match env.store image outputPath with
  | .error e => (.error e, [.storeCall outputPath])
  | .ok _ => (.ok outputPath, [.storeCall outputPath])

/-- ScreenClass.capture: grab the whole screen, then save it. -/
def capture (env : Env) (fileName : String) (fileFormat : FileType)
    (filePath : String) (pre : String) (post : String) :
    Except String String × List Event :=
  match env.grabScreen with
  | .error e => (.error e, [.grabScreenCall])
  | .ok currentScreen =>
    let (r, t) := saveImage env currentScreen fileName fileFormat filePath pre post
    (r, .grabScreenCall :: t)

/-- ScreenClass.captureRegion: grab the given region, then save it. -/
def captureRegion (env : Env) (fileName : String) (regionToCapture : Region)
    (fileFormat : FileType) (filePath : String) (pre : String) (post : String) :
    Except String String × List Event :=
  match env.grabScreenRegion regionToCapture with
  | .error e => (.error e, [.grabScreenRegionCall regionToCapture])
  | .ok regionImage =>
    let (r, t) := saveImage env regionImage fileName fileFormat filePath pre post
    (r, .grabScreenRegionCall regionToCapture :: t)

/-- Selector for hook invocations in a trace. -/
def isHookEvent : Event → Bool
  | .hookCall _ _ => true
  | _ => false

/-- The hook invocations of a trace, in order. -/
def hookEvents (t : List Event) : List Event :=
  t.filter isHookEvent

/-- Selector for image writer invocations in a trace. -/
def isStoreEvent : Event → Bool
  | .storeCall _ => true
  | _ => false

/-- The image writer invocations of a trace, in order. -/
def storeEvents (t : List Event) : List Event :=
  t.filter isStoreEvent

/-- A 1000x1000 reference screen for concrete instantiations. -/
def sampleScreen : Region := ⟨0, 0, 1000, 1000⟩

/-- A concrete grabbed screen image. -/
def sampleImage : Image := ⟨"screenshot", 300, 400⟩

/-- A concrete needle object. -/
def sampleNeedle : FindInput := ⟨1, "needle"⟩

/-- The regression search region from the spec. -/
def sampleSearchRegion : Region := ⟨100, 200, 300, 400⟩

/-- The regression match location from the spec. -/
def sampleLocation : Region := ⟨50, 100, 150, 200⟩

/-- A concrete successful match result. -/
def sampleMatch : MatchResult := ⟨1, sampleLocation⟩

/-- An environment in which every provider call succeeds and the finder
reports sampleMatch. -/
def sampleEnv : Env :=
  ⟨.ok sampleScreen,
    fun _ => .ok sampleImage,
    fun _ => .ok sampleMatch,
    fun _ => .ok [sampleMatch],
    fun _ _ _ => .ok (),
    .ok sampleImage,
    fun _ _ => .ok ()⟩

/-- A concrete configuration with auto-highlight disabled. -/
def sampleConfig : ScreenConfig := ⟨1, false, 500, 1, "."⟩

/-- Per-call parameters selecting the regression search region. -/
def sampleParams : OptionalSearchParameters := ⟨none, some sampleSearchRegion⟩

example :
    (find sampleEnv sampleConfig [] sampleNeedle (some sampleParams)).1 =
      .ok ⟨150, 300, 150, 200⟩ := by decide

example :
    (find sampleEnv sampleConfig [] sampleNeedle (some sampleParams)).2 =
      [Event.screenSizeCall, Event.grabScreenRegionCall sampleSearchRegion,
        Event.findMatchCall ⟨sampleImage, sampleNeedle, 1⟩] := by decide

/-- A successful hook loop invokes exactly the given hooks, in order. -/
theorem runHooks_ok (hooks : List Hook) (mr : MatchResult) (t : List Event)
    (h : runHooks hooks mr = (.ok (), t)) :
    t = hooks.map fun hk => Event.hookCall hk.hid mr := by
  induction hooks generalizing t with
  | nil =>
    simp only [runHooks, Prod.mk.injEq] at h
    simp [← h.2]
  | cons hd tl ih =>
    rw [runHooks] at h
    cases hr : hd.run mr with
    | error e =>
      rw [hr] at h
      simp at h
    | ok u =>
      rw [hr] at h
      rcases hrt : runHooks tl mr with ⟨r, t2⟩
      rw [hrt] at h
      simp only [Prod.mk.injEq] at h
      obtain ⟨h1, h2⟩ := h
      subst h1
      rw [← h2, List.map_cons]
      rw [ih t2 hrt]

/-- A hook loop where a prefix succeeds and the next hook rejects stops at the
rejecting hook: the prefix and the failing hook run, nothing after them. -/
theorem runHooks_error (l1 : List Hook) (h : Hook) (l2 : List Hook)
    (mr : MatchResult) (e : String)
    (h1 : ∀ hk ∈ l1, hk.run mr = .ok ())
    (h2 : h.run mr = .error e) :
    runHooks (l1 ++ h :: l2) mr =
      (.error e, (l1 ++ [h]).map fun hk => Event.hookCall hk.hid mr) := by
  induction l1 with
  | nil =>
    simp only [List.nil_append, List.map_cons, List.map_nil]
    rw [runHooks, h2]
  | cons hd tl ih =>
    have hhd : hd.run mr = .ok () := h1 hd (by simp)
    have htl : ∀ hk ∈ tl, hk.run mr = .ok () := fun hk hm => h1 hk (by simp [hm])
    simp only [List.cons_append]
    rw [runHooks, hhd, ih htl]
    simp

/-- One hook over a result list, all invocations succeeding: one trace entry
per result, in order. -/
theorem runHookOnEach_ok (h : Hook) (mrs : List MatchResult) (t : List Event)
    (hok : runHookOnEach h mrs = (.ok (), t)) :
    t = mrs.map fun mr => Event.hookCall h.hid mr := by
  induction mrs generalizing t with
  | nil =>
    simp only [runHookOnEach, Prod.mk.injEq] at hok
    simp [← hok.2]
  | cons hd tl ih =>
    rw [runHookOnEach] at hok
    cases hr : h.run hd with
    | error e =>
      rw [hr] at hok
      simp at hok
    | ok u =>
      rw [hr] at hok
      rcases hrt : runHookOnEach h tl with ⟨r, t2⟩
      rw [hrt] at hok
      simp only [Prod.mk.injEq] at hok
      obtain ⟨hok1, hok2⟩ := hok
      subst hok1
      rw [← hok2, List.map_cons]
      rw [ih t2 hrt]

/-- A successful findAll hook phase invokes every hook once per result, hooks
in registration order, each hook over the full result list. -/
theorem runHooksAll_ok (hooks : List Hook) (mrs : List MatchResult) (t : List Event)
    (h : runHooksAll hooks mrs = (.ok (), t)) :
    t = (hooks.map fun hk => mrs.map fun mr => Event.hookCall hk.hid mr).flatten := by
  induction hooks generalizing t with
  | nil =>
    simp only [runHooksAll, Prod.mk.injEq] at h
    simp [← h.2]
  | cons hd tl ih =>
    rw [runHooksAll] at h
    rcases he : runHookOnEach hd mrs with ⟨r1, t1⟩
    rw [he] at h
    cases r1 with
    | error e => simp at h
    | ok u =>
      rcases hrt : runHooksAll tl mrs with ⟨r2, t2⟩
      rw [hrt] at h
      simp only [Prod.mk.injEq] at h
      obtain ⟨h1, h2⟩ := h
      subst h1
      rw [← h2, List.map_cons, List.flatten_cons]
      rw [runHookOnEach_ok hd mrs t1 he, ih t2 hrt]

/-- Map.set leaves the value stored for every other key unchanged. -/
theorem lookupHooks_setHooks_other (st : FindHooks) (k m : FindInput)
    (v : List Hook) (hne : m.oid ≠ k.oid) :
    lookupHooks (setHooks st k v) m = lookupHooks st m := by
  induction st with
  | nil =>
    simp only [setHooks, lookupHooks]
    have : (k.oid == m.oid) = false := by
      simp [Ne.symm hne]
    simp [this, beq_iff_eq, Ne.symm hne]
  | cons e rest ih =>
    rw [setHooks]
    by_cases he : e.1.oid = k.oid
    · simp only [he, beq_self_eq_true, if_true]
      rw [lookupHooks, lookupHooks]
      have h1 : (k.oid == m.oid) = false := by simp [Ne.symm hne]
      have h2 : (e.1.oid == m.oid) = false := by simp [he, Ne.symm hne]
      simp [h1, h2]
    · have : (e.1.oid == k.oid) = false := by simp [he]
      simp only [this, Bool.false_eq_true, if_false]
      rw [lookupHooks, lookupHooks]
      by_cases hm : e.1.oid = m.oid
      · simp [hm]
      · have : (e.1.oid == m.oid) = false := by simp [hm]
        simp [this, ih]

/-- Map.set stores exactly the given value for the given key. -/
theorem lookupHooks_setHooks_self (st : FindHooks) (k : FindInput) (v : List Hook) :
    lookupHooks (setHooks st k v) k = some v := by
  induction st with
  | nil => simp [setHooks, lookupHooks]
  | cons e rest ih =>
    rw [setHooks]
    by_cases he : e.1.oid = k.oid
    · simp [he, lookupHooks]
    · have : (e.1.oid == k.oid) = false := by simp [he]
      simp [this, lookupHooks, ih]

/-- A single registration appends the callback to the stored list. -/
theorem lookupHooks_on_self (st : FindHooks) (k : FindInput) (cb : Hook) :
    lookupHooks («on» st k cb) k = some ((lookupHooks st k).getD [] ++ [cb]) := by
  rw [«on»]
  exact lookupHooks_setHooks_self st k _

/-- A single registration leaves every other key unchanged. -/
theorem lookupHooks_on_other (st : FindHooks) (k m : FindInput) (cb : Hook)
    (hne : m.oid ≠ k.oid) :
    lookupHooks («on» st k cb) m = lookupHooks st m := by
  rw [«on»]
  exact lookupHooks_setHooks_other st k m _ hne

/-- Registering a callback list onto an existing entry appends all of it. -/
theorem lookupHooks_registerAll_some (cbs : List Hook) (st : FindHooks)
    (k : FindInput) (prior : List Hook)
    (h : lookupHooks st k = some prior) :
    lookupHooks (registerAll st k cbs) k = some (prior ++ cbs) := by
  induction cbs generalizing st prior with
  | nil => simpa [registerAll] using h
  | cons c rest ih =>
    rw [registerAll, List.foldl_cons]
    have hstep : lookupHooks («on» st k c) k = some (prior ++ [c]) := by
      rw [lookupHooks_on_self, h]
      simp
    have := ih («on» st k c) (prior ++ [c]) hstep
    rw [registerAll] at this
    rw [this]
    simp

/-- Registering a callback list never touches other keys. -/
theorem lookupHooks_registerAll_other (cbs : List Hook) (st : FindHooks)
    (k m : FindInput) (hne : m.oid ≠ k.oid) :
    lookupHooks (registerAll st k cbs) m = lookupHooks st m := by
  induction cbs generalizing st with
  | nil => simp [registerAll]
  | cons c rest ih =>
    rw [registerAll, List.foldl_cons]
    have := ih («on» st k c)
    rw [registerAll] at this
    rw [this, lookupHooks_on_other st k m c hne]


/-- Inversion of a failed highlight call: the failure is the raw rejection of
the screen provider's highlightScreenRegion. -/
theorem highlight_error_elim (env : Env) (cfg : ScreenConfig) (r : Region)
    (e : String) (t : List Event)
    (h : highlight env cfg r = (.error e, t)) :
    env.highlightScreenRegion r cfg.highlightDurationMs cfg.highlightOpacity =
      .error e := by
  cases hh : env.highlightScreenRegion r cfg.highlightDurationMs cfg.highlightOpacity with
  | error e2 =>
    have hcomp : highlight env cfg r =
        (.error e2, [Event.highlightCall r cfg.highlightDurationMs cfg.highlightOpacity]) := by
      simp [highlight, hh]
    rw [hcomp] at h
    simp only [Prod.mk.injEq, Except.error.injEq] at h
    rw [h.1]
  | ok u =>
    have hcomp : highlight env cfg r =
        (.ok r, [Event.highlightCall r cfg.highlightDurationMs cfg.highlightOpacity]) := by
      simp [highlight, hh]
    rw [hcomp] at h
    simp at h

/-- Inversion of a successful highlight call: the input region is returned,
one provider call is traced, and the provider succeeded. -/
theorem highlight_ok_elim (env : Env) (cfg : ScreenConfig) (r reg : Region)
    (t : List Event)
    (h : highlight env cfg r = (.ok reg, t)) :
    reg = r ∧
    t = [Event.highlightCall r cfg.highlightDurationMs cfg.highlightOpacity] ∧
    env.highlightScreenRegion r cfg.highlightDurationMs cfg.highlightOpacity = .ok () := by
  cases hh : env.highlightScreenRegion r cfg.highlightDurationMs cfg.highlightOpacity with
  | error e2 =>
    have hcomp : highlight env cfg r =
        (.error e2, [Event.highlightCall r cfg.highlightDurationMs cfg.highlightOpacity]) := by
      simp [highlight, hh]
    rw [hcomp] at h
    simp at h
  | ok u =>
    cases u
    have hcomp : highlight env cfg r =
        (.ok r, [Event.highlightCall r cfg.highlightDurationMs cfg.highlightOpacity]) := by
      simp [highlight, hh]
    rw [hcomp] at h
    simp only [Prod.mk.injEq, Except.ok.injEq] at h
    exact ⟨h.1.symm, h.2.symm, rfl⟩

/-- Every error result of find is either the wrapped error produced by the
catch, or the raw rejection of the un-awaited auto-highlight promise, which
bypasses the catch. -/
theorem find_error_shape (env : Env) (cfg : ScreenConfig) (st : FindHooks)
    (needle : FindInput) (params : Option OptionalSearchParameters)
    (e : String) (trace : List Event)
    (h : find env cfg st needle params = (.error e, trace)) :
    (∃ cause, e = searchFailedMessage needle.id cause) ∨
    (cfg.autoHighlight = true ∧ ∃ r,
      env.highlightScreenRegion r cfg.highlightDurationMs cfg.highlightOpacity =
        .error e) := by
  rw [find] at h
  rcases hfb : findBody env cfg st needle params with ⟨res, t⟩
  rw [hfb] at h
  cases res with
  | error e2 =>
    simp only [Prod.mk.injEq, Except.error.injEq] at h
    exact Or.inl ⟨e2, h.1.symm⟩
  | ok r =>
    simp only [] at h
    split at h
    · next hauto =>
      rcases hh : highlight env cfg r with ⟨resH, t4⟩
      rw [hh] at h
      simp only [Prod.mk.injEq] at h
      cases resH with
      | error e2 =>
        have hp := highlight_error_elim env cfg r e2 t4 hh
        have he2 : e2 = e := by
          have := h.1
          simp only [Except.error.injEq] at this
          exact this
        rw [he2] at hp
        exact Or.inr ⟨hauto, r, hp⟩
      | ok u => simp at h
    · next hauto => simp at h

/-- Inversion of a successful getFindParameters call. -/
theorem getFindParameters_ok_elim (env : Env) (cfg : ScreenConfig)
    (params : Option OptionalSearchParameters) (fp : FindParameters) (t : List Event)
    (h : getFindParameters env cfg params = (.ok fp, t)) :
    env.screenSize = .ok fp.screenSize ∧
    fp.searchRegion = effectiveSearchRegion params fp.screenSize ∧
    fp.minMatch = effectiveConfidence params cfg ∧
    env.grabScreenRegion fp.searchRegion = .ok fp.screenImage ∧
    t = [Event.screenSizeCall, Event.grabScreenRegionCall fp.searchRegion] := by
  rw [getFindParameters] at h
  split at h
  · simp at h
  · next S hS =>
    simp only [] at h
    split at h
    · simp at h
    · next img hg =>
      simp only [Prod.mk.injEq, Except.ok.injEq] at h
      obtain ⟨hfp, htr⟩ := h
      subst hfp
      exact ⟨hS, rfl, rfl, hg, htr.symm⟩



theorem findBody_ok_elim (env : Env) (cfg : ScreenConfig) (st : FindHooks)
    (needle : FindInput) (params : Option OptionalSearchParameters)
    (reg : Region) (t : List Event)
    (h : findBody env cfg st needle params = (.ok reg, t)) :
    ∃ S img mr ht,
      env.screenSize = .ok S ∧
      env.grabScreenRegion (effectiveSearchRegion params S) = .ok img ∧
      validateSearchRegion (effectiveSearchRegion params S) S = .ok () ∧
      env.findMatch (createMatchRequest needle (effectiveSearchRegion params S)
        (effectiveConfidence params cfg) img) = .ok mr ∧
      runHooks ((getHooksForInput st needle).getD []) mr = (.ok (), ht) ∧
      reg = translateLocation (effectiveSearchRegion params S) mr ∧
      t = Event.screenSizeCall :: Event.grabScreenRegionCall (effectiveSearchRegion params S) ::
        Event.findMatchCall (createMatchRequest needle (effectiveSearchRegion params S)
          (effectiveConfidence params cfg) img) :: ht := by
  rw [findBody] at h
  rcases hfp : getFindParameters env cfg params with ⟨resfp, t0⟩
  rw [hfp] at h
  cases resfp with
  | error e => simp at h
  | ok fp =>
    obtain ⟨hS, hsr, hmm, hg, ht0⟩ := getFindParameters_ok_elim env cfg params fp t0 hfp
    simp only [] at h
    split at h
    · simp at h
    · next u hv =>
      rw [getMatchResult] at h
      split at h
      · next e t2 hm => simp at h
      · next mr t2 hm =>
        simp only [Prod.mk.injEq] at hm
        obtain ⟨hm1, hm2⟩ := hm
        split at h
        · next e t3 hrh => simp at h
        · next u3 t3 hrh =>
          simp only [Prod.mk.injEq, Except.ok.injEq] at h
          refine ⟨fp.screenSize, fp.screenImage, mr, t3, hS, ?_, ?_, ?_, ?_, ?_, ?_⟩
          · rw [← hsr]; exact hg
          · rw [← hsr]; exact hv
          · rw [← hsr, ← hmm]; exact hm1
          · cases u3; exact hrh
          · rw [← hsr, ← h.1]
          · rw [← h.2, ht0, ← hm2, hsr, hmm]
            simp

theorem find_ok_elim (env : Env) (cfg : ScreenConfig) (st : FindHooks)
    (needle : FindInput) (params : Option OptionalSearchParameters)
    (reg : Region) (trace : List Event)
    (h : find env cfg st needle params = (.ok reg, trace)) :
    ∃ S img mr ht,
      env.screenSize = .ok S ∧
      env.grabScreenRegion (effectiveSearchRegion params S) = .ok img ∧
      validateSearchRegion (effectiveSearchRegion params S) S = .ok () ∧
      env.findMatch (createMatchRequest needle (effectiveSearchRegion params S)
        (effectiveConfidence params cfg) img) = .ok mr ∧
      runHooks ((getHooksForInput st needle).getD []) mr = (.ok (), ht) ∧
      reg = translateLocation (effectiveSearchRegion params S) mr ∧
      trace = Event.screenSizeCall :: Event.grabScreenRegionCall (effectiveSearchRegion params S) ::
        Event.findMatchCall (createMatchRequest needle (effectiveSearchRegion params S)
          (effectiveConfidence params cfg) img) :: (ht ++
        (if cfg.autoHighlight then
          [Event.highlightCall (translateLocation (effectiveSearchRegion params S) mr)
            cfg.highlightDurationMs cfg.highlightOpacity]
        else [])) := by
  rw [find] at h
  rcases hfb : findBody env cfg st needle params with ⟨res, t⟩
  rw [hfb] at h
  cases res with
  | error e => simp at h
  | ok r =>
    simp only [] at h
    split at h
    · next hauto =>
      rcases hh : highlight env cfg r with ⟨resH, t4⟩
      rw [hh] at h
      simp only [Prod.mk.injEq] at h
      cases resH with
      | error e2 => simp at h
      | ok u =>
        obtain ⟨hur, ht4, hp⟩ := highlight_ok_elim env cfg r u t4 hh
        have hr : r = reg := by
          have := h.1
          simp only [Except.ok.injEq] at this
          rw [← this, hur]
        have htr := h.2
        obtain ⟨S, img, mr, ht, hS, hg, hv, hm, hrh, hreg, ht2⟩ :=
          findBody_ok_elim env cfg st needle params r t hfb
        refine ⟨S, img, mr, ht, hS, hg, hv, hm, hrh, ?_, ?_⟩
        · rw [← hr]; exact hreg
        · rw [← htr, ht2, ht4, if_pos hauto, ← hreg]
          simp
    · next hauto =>
      simp only [Prod.mk.injEq, Except.ok.injEq] at h
      obtain ⟨hr, htr⟩ := h
      obtain ⟨S, img, mr, ht, hS, hg, hv, hm, hrh, hreg, ht2⟩ :=
        findBody_ok_elim env cfg st needle params r t hfb
      refine ⟨S, img, mr, ht, hS, hg, hv, hm, hrh, ?_, ?_⟩
      · rw [← hr]; exact hreg
      · rw [← htr, ht2, if_neg hauto]
        simp

theorem highlight_trace (env : Env) (cfg : ScreenConfig) (r : Region) :
    (highlight env cfg r).2 =
      [Event.highlightCall r cfg.highlightDurationMs cfg.highlightOpacity] := by
  rw [highlight]
  split <;> rfl

theorem flatten_singleton_map {α β : Type} (f : α → β) (l : List α) :
    (l.map fun r => [f r]).flatten = l.map f := by
  induction l with
  | nil => simp
  | cons hd tl ih => simp [ih]

theorem findAll_error_shape (env : Env) (cfg : ScreenConfig) (st : FindHooks)
    (needle : FindInput) (params : Option OptionalSearchParameters)
    (e : String) (trace : List Event)
    (h : findAll env cfg st needle params = (.error e, trace)) :
    ∃ cause, e = searchFailedMessage needle.id cause := by
  rw [findAll] at h
  rcases hfb : findAllBody env cfg st needle params with ⟨res, t⟩
  rw [hfb] at h
  cases res with
  | ok r => simp at h
  | error e2 =>
    simp only [Prod.mk.injEq, Except.error.injEq] at h
    exact ⟨e2, h.1.symm⟩

theorem findAll_ok_elim (env : Env) (cfg : ScreenConfig) (st : FindHooks)
    (needle : FindInput) (params : Option OptionalSearchParameters)
    (regs : List Region) (trace : List Event)
    (h : findAll env cfg st needle params = (.ok regs, trace)) :
    ∃ S img mrs ht,
      env.screenSize = .ok S ∧
      env.grabScreenRegion (effectiveSearchRegion params S) = .ok img ∧
      validateSearchRegion (effectiveSearchRegion params S) S = .ok () ∧
      env.findMatches (createMatchRequest needle (effectiveSearchRegion params S)
        (effectiveConfidence params cfg) img) = .ok mrs ∧
      runHooksAll ((getHooksForInput st needle).getD []) mrs = (.ok (), ht) ∧
      regs = mrs.map (translateLocation (effectiveSearchRegion params S)) ∧
      trace = Event.screenSizeCall :: Event.grabScreenRegionCall (effectiveSearchRegion params S) ::
        Event.findMatchesCall (createMatchRequest needle (effectiveSearchRegion params S)
          (effectiveConfidence params cfg) img) :: (ht ++
        (if cfg.autoHighlight then
          regs.map fun r => Event.highlightCall r cfg.highlightDurationMs cfg.highlightOpacity
        else [])) := by
  rw [findAll] at h
  rcases hfb : findAllBody env cfg st needle params with ⟨res, t⟩
  rw [hfb] at h
  cases res with
  | error e => simp at h
  | ok r =>
    simp only [Prod.mk.injEq, Except.ok.injEq] at h
    obtain ⟨hr, ht0⟩ := h
    subst hr
    subst ht0
    rw [findAllBody] at hfb
    rcases hfp : getFindParameters env cfg params with ⟨resfp, t0⟩
    rw [hfp] at hfb
    cases resfp with
    | error e => simp at hfb
    | ok fp =>
      obtain ⟨hS, hsr, hmm, hg, ht0⟩ := getFindParameters_ok_elim env cfg params fp t0 hfp
      simp only [] at hfb
      split at hfb
      · simp at hfb
      · next u hv =>
        rw [getMatchResults] at hfb
        split at hfb
        · next e t2 hm => simp at hfb
        · next mrs t2 hm =>
          simp only [Prod.mk.injEq] at hm
          obtain ⟨hm1, hm2⟩ := hm
          split at hfb
          · next e t3 hrh => simp at hfb
          · next u3 t3 hrh =>
            refine ⟨fp.screenSize, fp.screenImage, mrs, t3, hS, ?_, ?_, ?_, ?_, ?_, ?_⟩
            · rw [← hsr]; exact hg
            · rw [← hsr]; exact hv
            · rw [← hsr, ← hmm]; exact hm1
            · cases u3; exact hrh
            · split at hfb
              · next hauto =>
                simp only [Prod.mk.injEq, Except.ok.injEq] at hfb
                rw [← hsr, ← hfb.1]
              · next hauto =>
                simp only [Prod.mk.injEq, Except.ok.injEq] at hfb
                rw [← hsr, ← hfb.1]
            · split at hfb
              · next hauto =>
                simp only [Prod.mk.injEq, Except.ok.injEq] at hfb
                rw [← hfb.2, ht0, ← hm2, hsr, if_pos hauto]
                simp only [List.cons_append, List.nil_append, List.append_assoc]
                have hht : ∀ rg : Region, (highlight env cfg rg).2 =
                    [Event.highlightCall rg cfg.highlightDurationMs cfg.highlightOpacity] :=
                  highlight_trace env cfg
                simp only [hht, flatten_singleton_map, hmm]
                rw [← hsr, hfb.1]
              · next hauto =>
                simp only [Prod.mk.injEq, Except.ok.injEq] at hfb
                rw [← hfb.2, ht0, ← hm2, hsr]
                simp [hauto]
                rw [hmm]


theorem validateSearchRegion_invalid (search screen : Region)
    (h : search.left.lt 0 = true ∨ search.top.lt 0 = true ∨
      search.width.lt 0 = true ∨ search.height.lt 0 = true ∨
      search.left.isNaN = true ∨ search.top.isNaN = true ∨
      search.width.isNaN = true ∨ search.height.isNaN = true ∨
      search.width.lt 2 = true ∨ search.height.lt 2 = true ∨
      (search.left.add search.width).gt screen.width = true ∨
      (search.top.add search.height).gt screen.height = true) :
    ∃ e, validateSearchRegion search screen = .error e := by
  rw [validateSearchRegion]
  split_ifs with h1 h2 h3 h4
  · exact ⟨_, rfl⟩
  · exact ⟨_, rfl⟩
  · exact ⟨_, rfl⟩
  · exact ⟨_, rfl⟩
  · simp only [Bool.or_eq_true, not_or, Bool.not_eq_true] at h1 h2 h3 h4
    rcases h with h|h|h|h|h|h|h|h|h|h|h|h <;> simp_all

theorem find_invalid_region (env : Env) (cfg : ScreenConfig) (st : FindHooks)
    (needle : FindInput) (params : Option OptionalSearchParameters) (S : Region)
    (hS : env.screenSize = .ok S)
    (hinv : ∃ ev, validateSearchRegion (effectiveSearchRegion params S) S = .error ev) :
    ∃ cause, find env cfg st needle params =
      (.error (searchFailedMessage needle.id cause),
        [Event.screenSizeCall, Event.grabScreenRegionCall (effectiveSearchRegion params S)]) := by
  obtain ⟨ev, hv⟩ := hinv
  cases hg : env.grabScreenRegion (effectiveSearchRegion params S) with
  | error e =>
    exact ⟨e, by simp [find, findBody, getFindParameters, hS, hg]⟩
  | ok img =>
    exact ⟨ev, by simp [find, findBody, getFindParameters, hS, hg, hv]⟩

theorem findAll_invalid_region (env : Env) (cfg : ScreenConfig) (st : FindHooks)
    (needle : FindInput) (params : Option OptionalSearchParameters) (S : Region)
    (hS : env.screenSize = .ok S)
    (hinv : ∃ ev, validateSearchRegion (effectiveSearchRegion params S) S = .error ev) :
    ∃ cause, findAll env cfg st needle params =
      (.error (searchFailedMessage needle.id cause),
        [Event.screenSizeCall, Event.grabScreenRegionCall (effectiveSearchRegion params S)]) := by
  obtain ⟨ev, hv⟩ := hinv
  cases hg : env.grabScreenRegion (effectiveSearchRegion params S) with
  | error e =>
    exact ⟨e, by simp [findAll, findAllBody, getFindParameters, hS, hg]⟩
  | ok img =>
    exact ⟨ev, by simp [findAll, findAllBody, getFindParameters, hS, hg, hv]⟩


/-- An environment whose finder provider rejects every request. -/
def failingEnv : Env :=
  ⟨.ok sampleScreen,
    fun _ => .ok sampleImage,
    fun _ => .error "Search failed.",
    fun _ => .error "Search failed.",
    fun _ _ _ => .ok (),
    .ok sampleImage,
    fun _ _ => .ok ()⟩

/-- C1: For every successful single match, the region returned by find equals
the componentwise translation of the match result into absolute coordinates:
left and top are shifted by the search region origin while width and height
are taken unchanged from the match location; findAll applies the same
translation to every result. -/
theorem find_returns_translated_region :
    (∀ env cfg st needle params reg trace,
      find env cfg st needle params = (.ok reg, trace) →
      ∃ S img mr,
        env.screenSize = .ok S ∧
        env.grabScreenRegion (effectiveSearchRegion params S) = .ok img ∧
        env.findMatch (createMatchRequest needle (effectiveSearchRegion params S)
          (effectiveConfidence params cfg) img) = .ok mr ∧
        reg = Region.mk
          ((effectiveSearchRegion params S).left.add mr.location.left)
          ((effectiveSearchRegion params S).top.add mr.location.top)
          mr.location.width mr.location.height) ∧
    (∀ env cfg st needle params regs trace,
      findAll env cfg st needle params = (.ok regs, trace) →
      ∃ S img mrs,
        env.screenSize = .ok S ∧
        env.grabScreenRegion (effectiveSearchRegion params S) = .ok img ∧
        env.findMatches (createMatchRequest needle (effectiveSearchRegion params S)
          (effectiveConfidence params cfg) img) = .ok mrs ∧
        regs = mrs.map fun mr => Region.mk
          ((effectiveSearchRegion params S).left.add mr.location.left)
          ((effectiveSearchRegion params S).top.add mr.location.top)
          mr.location.width mr.location.height) := by
  constructor
  · intro env cfg st needle params reg trace h
    obtain ⟨S, img, mr, ht, hS, hg, hv, hm, hrh, hreg, htr⟩ :=
      find_ok_elim env cfg st needle params reg trace h
    exact ⟨S, img, mr, hS, hg, hm, by simpa [translateLocation] using hreg⟩
  · intro env cfg st needle params regs trace h
    obtain ⟨S, img, mrs, ht, hS, hg, hv, hm, hrh, hregs, htr⟩ :=
      findAll_ok_elim env cfg st needle params regs trace h
    refine ⟨S, img, mrs, hS, hg, hm, ?_⟩
    rw [hregs]
    simp [translateLocation]

/-- Witness for C1 at the regression scenario: search region (100,200,300,400)
and match location (50,100,150,200) yield result region (150,300,150,200). -/
theorem find_returns_translated_region_witness :
    (∃ S img mr,
      sampleEnv.screenSize = .ok S ∧
      sampleEnv.grabScreenRegion (effectiveSearchRegion (some sampleParams) S) = .ok img ∧
      sampleEnv.findMatch (createMatchRequest sampleNeedle
        (effectiveSearchRegion (some sampleParams) S)
        (effectiveConfidence (some sampleParams) sampleConfig) img) = .ok mr ∧
      (⟨150, 300, 150, 200⟩ : Region) = Region.mk
        ((effectiveSearchRegion (some sampleParams) S).left.add mr.location.left)
        ((effectiveSearchRegion (some sampleParams) S).top.add mr.location.top)
        mr.location.width mr.location.height) ∧
    (∃ S img mrs,
      sampleEnv.screenSize = .ok S ∧
      sampleEnv.grabScreenRegion (effectiveSearchRegion (some sampleParams) S) = .ok img ∧
      sampleEnv.findMatches (createMatchRequest sampleNeedle
        (effectiveSearchRegion (some sampleParams) S)
        (effectiveConfidence (some sampleParams) sampleConfig) img) = .ok mrs ∧
      ([⟨150, 300, 150, 200⟩] : List Region) = mrs.map fun mr => Region.mk
        ((effectiveSearchRegion (some sampleParams) S).left.add mr.location.left)
        ((effectiveSearchRegion (some sampleParams) S).top.add mr.location.top)
        mr.location.width mr.location.height) :=
  ⟨(find_returns_translated_region).1 sampleEnv sampleConfig [] sampleNeedle
      (some sampleParams) ⟨150, 300, 150, 200⟩
      [Event.screenSizeCall, Event.grabScreenRegionCall sampleSearchRegion,
        Event.findMatchCall ⟨sampleImage, sampleNeedle, 1⟩] (by decide),
    (find_returns_translated_region).2 sampleEnv sampleConfig [] sampleNeedle
      (some sampleParams) [⟨150, 300, 150, 200⟩]
      [Event.screenSizeCall, Event.grabScreenRegionCall sampleSearchRegion,
        Event.findMatchesCall ⟨sampleImage, sampleNeedle, 1⟩] (by decide)⟩

/-- C2: For every search region with a negative component, a NaN component,
width or height below two, or extending beyond the reference screen, find
rejects with the uniform wrapper message carrying the needle id, and the
finder provider is never invoked, so no location is returned. -/
theorem find_rejects_invalid_search_region (env : Env) (cfg : ScreenConfig)
    (st : FindHooks) (needle : FindInput) (params : Option OptionalSearchParameters)
    (S r : Region)
    (hS : env.screenSize = .ok S)
    (hr : effectiveSearchRegion params S = r)
    (hinv : r.left.lt 0 = true ∨ r.top.lt 0 = true ∨
      r.width.lt 0 = true ∨ r.height.lt 0 = true ∨
      r.left.isNaN = true ∨ r.top.isNaN = true ∨
      r.width.isNaN = true ∨ r.height.isNaN = true ∨
      r.width.lt 2 = true ∨ r.height.lt 2 = true ∨
      (r.left.add r.width).gt S.width = true ∨
      (r.top.add r.height).gt S.height = true) :
    (∃ cause, (find env cfg st needle params).1 =
      .error (searchFailedMessage needle.id cause)) ∧
    ∀ req, Event.findMatchCall req ∉ (find env cfg st needle params).2 := by
  subst hr
  have hv := validateSearchRegion_invalid (effectiveSearchRegion params S) S hinv
  obtain ⟨cause, hfind⟩ := find_invalid_region env cfg st needle params S hS hv
  constructor
  · exact ⟨cause, by rw [hfind]⟩
  · intro req hmem
    rw [hfind] at hmem
    simp at hmem

/-- Witness for C2: the effective search region (-1, 0, 100, 100) on a
1000x1000 screen is rejected without any finder call. -/
theorem find_rejects_invalid_search_region_witness :
    (∃ cause, (find sampleEnv sampleConfig [] sampleNeedle
      (some ⟨none, some ⟨.num (-1), 0, 100, 100⟩⟩)).1 =
      .error (searchFailedMessage sampleNeedle.id cause)) ∧
    ∀ req, Event.findMatchCall req ∉ (find sampleEnv sampleConfig [] sampleNeedle
      (some ⟨none, some ⟨.num (-1), 0, 100, 100⟩⟩)).2 :=
  find_rejects_invalid_search_region sampleEnv sampleConfig [] sampleNeedle
    (some ⟨none, some ⟨.num (-1), 0, 100, 100⟩⟩) sampleScreen
    ⟨.num (-1), 0, 100, 100⟩ (by decide) (by decide) (by decide)

/-- An environment whose screen provider rejects every highlight request. -/
def highlightFailEnv : Env :=
  ⟨.ok sampleScreen,
    fun _ => .ok sampleImage,
    fun _ => .ok sampleMatch,
    fun _ => .ok [sampleMatch],
    fun _ _ _ => .error "highlight boom",
    .ok sampleImage,
    fun _ _ => .ok ()⟩

/-- A concrete configuration with auto-highlight enabled. -/
def autoHighlightConfig : ScreenConfig := ⟨1, true, 500, 1, "."⟩

/-- The length of a wrapped error message: the fixed wrapper text contributes
33 characters around the needle id and the cause. -/
theorem searchFailedMessage_length (needleId cause : String) :
    (searchFailedMessage needleId cause).length =
      needleId.length + cause.length + 33 := by
  rw [searchFailedMessage]
  simp only [String.length_append]
  have h1 : ("Searching for " : String).length = 14 := rfl
  have h2 : (" failed. Reason: '" : String).length = 18 := rfl
  have h3 : ("'" : String).length = 1 := rfl
  rw [h1, h2, h3]
  omega

/-- C3 counterexample: with auto-highlight enabled and a screen provider
whose highlightScreenRegion rejects, find rejects with the RAW highlight
error "highlight boom", which is not of the wrapped shape for any cause —
the un-awaited highlight promise returned from inside the try bypasses the
catch, so an internal error shape does escape to the caller. -/
theorem find_autohighlight_error_escapes_unwrapped_cex :
    (find highlightFailEnv autoHighlightConfig [] sampleNeedle (some sampleParams)).1 =
      .error "highlight boom" ∧
    ¬ ∃ cause, "highlight boom" = searchFailedMessage sampleNeedle.id cause := by
  constructor
  · decide
  · rintro ⟨cause, hc⟩
    have hlen := congrArg String.length hc
    rw [searchFailedMessage_length] at hlen
    have h4 : ("highlight boom" : String).length = 14 := rfl
    have h5 : (sampleNeedle.id).length = 6 := rfl
    rw [h4, h5] at hlen
    omega

/-- C3 (amended): every failure of find or findAll past the needle-type check
surfaces as the single synthesized error "Searching for <id> failed.
Reason: '<cause>'", with one exception: when autoHighlight is enabled, find
returns the un-awaited auto-highlight promise from inside the try, so a
rejection of that highlight call reaches the caller as the raw provider
error. With autoHighlight disabled, and for findAll always, every failure is
wrapped. -/
theorem find_failures_wrapped_except_autohighlight :
    (∀ env cfg st needle params e trace,
      find env cfg st needle params = (.error e, trace) →
      (∃ cause, e = searchFailedMessage needle.id cause) ∨
      (cfg.autoHighlight = true ∧ ∃ r,
        env.highlightScreenRegion r cfg.highlightDurationMs cfg.highlightOpacity =
          .error e)) ∧
    (∀ env cfg st needle params e trace,
      cfg.autoHighlight = false →
      find env cfg st needle params = (.error e, trace) →
      ∃ cause, e = searchFailedMessage needle.id cause) ∧
    (∀ env cfg st needle params e trace,
      findAll env cfg st needle params = (.error e, trace) →
      ∃ cause, e = searchFailedMessage needle.id cause) := by
  refine ⟨?_, ?_, ?_⟩
  · intro env cfg st needle params e trace h
    exact find_error_shape env cfg st needle params e trace h
  · intro env cfg st needle params e trace hauto h
    rcases find_error_shape env cfg st needle params e trace h with hw | ⟨ht, _⟩
    · exact hw
    · rw [hauto] at ht
      exact absurd ht (by simp)
  · intro env cfg st needle params e trace h
    exact findAll_error_shape env cfg st needle params e trace h

/-- Witness for the amended C3: the raw escape on a rejecting highlight with
auto-highlight on, and the wrapped shape for a rejecting finder with
auto-highlight off, for find and findAll. -/
theorem find_failures_wrapped_except_autohighlight_witness :
    ((∃ cause, "highlight boom" = searchFailedMessage sampleNeedle.id cause) ∨
      (autoHighlightConfig.autoHighlight = true ∧ ∃ r,
        highlightFailEnv.highlightScreenRegion r autoHighlightConfig.highlightDurationMs
          autoHighlightConfig.highlightOpacity = .error "highlight boom")) ∧
    (∃ cause, searchFailedMessage "needle" "Search failed." =
      searchFailedMessage sampleNeedle.id cause) ∧
    (∃ cause, searchFailedMessage "needle" "Search failed." =
      searchFailedMessage sampleNeedle.id cause) :=
  ⟨(find_failures_wrapped_except_autohighlight).1 highlightFailEnv autoHighlightConfig
      [] sampleNeedle (some sampleParams) "highlight boom"
      [Event.screenSizeCall, Event.grabScreenRegionCall sampleSearchRegion,
        Event.findMatchCall ⟨sampleImage, sampleNeedle, 1⟩,
        Event.highlightCall ⟨150, 300, 150, 200⟩ 500 1] (by decide),
    (find_failures_wrapped_except_autohighlight).2.1 failingEnv sampleConfig []
      sampleNeedle (some sampleParams) (searchFailedMessage "needle" "Search failed.")
      [Event.screenSizeCall, Event.grabScreenRegionCall sampleSearchRegion,
        Event.findMatchCall ⟨sampleImage, sampleNeedle, 1⟩] rfl (by decide),
    (find_failures_wrapped_except_autohighlight).2.2 failingEnv sampleConfig []
      sampleNeedle (some sampleParams) (searchFailedMessage "needle" "Search failed.")
      [Event.screenSizeCall, Event.grabScreenRegionCall sampleSearchRegion,
        Event.findMatchesCall ⟨sampleImage, sampleNeedle, 1⟩] (by decide)⟩

theorem hookEvents_append (a b : List Event) :
    hookEvents (a ++ b) = hookEvents a ++ hookEvents b := by
  simp [hookEvents, List.filter_append]

theorem hookEvents_map_hookCall (l : List Hook) (mr : MatchResult) :
    hookEvents (l.map fun hk => Event.hookCall hk.hid mr) =
      l.map fun hk => Event.hookCall hk.hid mr := by
  rw [hookEvents, List.filter_eq_self]
  intro e he
  simp only [List.mem_map] at he
  obtain ⟨hk, hmem, rfl⟩ := he
  rfl

/-- A hook that always rejects. -/
def throwingHook : Hook := ⟨0, fun _ => .error "hook boom"⟩

/-- A registry holding only the throwing hook for the sample needle. -/
def hookThrowSt : FindHooks := [(sampleNeedle, [throwingHook])]

/-- C4 counterexample: with a single registered hook that rejects with
"hook boom", find rejects with the WRAPPED uniform error, not with the raw
hook error, refuting the claim that the caller sees the hook error itself. -/
theorem find_hook_error_wrapped_cex :
    (find sampleEnv sampleConfig hookThrowSt sampleNeedle (some sampleParams)).1 =
      .error (searchFailedMessage "needle" "hook boom") ∧
    searchFailedMessage "needle" "hook boom" ≠ "hook boom" := by
  constructor
  · decide
  · decide

/-- C4 amended: a hook rejection aborts the remaining hook chain and fails the
overall find call, and the caller sees the uniform wrapped error carrying the
hook error as its cause (not the raw hook error). -/
theorem find_hook_error_aborts_and_wraps (env : Env) (cfg : ScreenConfig)
    (st : FindHooks) (needle : FindInput) (params : Option OptionalSearchParameters)
    (S : Region) (img : Image) (mr : MatchResult)
    (l1 : List Hook) (h : Hook) (l2 : List Hook) (ehook : String)
    (hS : env.screenSize = .ok S)
    (hg : env.grabScreenRegion (effectiveSearchRegion params S) = .ok img)
    (hv : validateSearchRegion (effectiveSearchRegion params S) S = .ok ())
    (hm : env.findMatch (createMatchRequest needle (effectiveSearchRegion params S)
      (effectiveConfidence params cfg) img) = .ok mr)
    (hhooks : (getHooksForInput st needle).getD [] = l1 ++ h :: l2)
    (hpre : ∀ hk ∈ l1, hk.run mr = .ok ())
    (hthrow : h.run mr = .error ehook) :
    (find env cfg st needle params).1 =
      .error (searchFailedMessage needle.id ehook) ∧
    hookEvents (find env cfg st needle params).2 =
      (l1 ++ [h]).map fun hk => Event.hookCall hk.hid mr := by
  have hrun := runHooks_error l1 h l2 mr ehook hpre hthrow
  have hfind : find env cfg st needle params =
      (.error (searchFailedMessage needle.id ehook),
        [Event.screenSizeCall, Event.grabScreenRegionCall (effectiveSearchRegion params S),
          Event.findMatchCall (createMatchRequest needle (effectiveSearchRegion params S)
            (effectiveConfidence params cfg) img)] ++
          ((l1 ++ [h]).map fun hk => Event.hookCall hk.hid mr)) := by
    simp [find, findBody, getFindParameters, getMatchResult, hS, hg, hv, hm, hhooks, hrun]
  rw [hfind]
  refine ⟨rfl, ?_⟩
  rw [hookEvents_append]
  rw [hookEvents_map_hookCall]
  simp [hookEvents, isHookEvent]

/-- Witness for the amended C4: one succeeding hook followed by the throwing
hook; only those two run and the error is wrapped. -/
theorem find_hook_error_aborts_and_wraps_witness :
    (find sampleEnv sampleConfig
      [(sampleNeedle, [⟨1, fun _ => .ok ()⟩, throwingHook, ⟨2, fun _ => .ok ()⟩])]
      sampleNeedle (some sampleParams)).1 =
      .error (searchFailedMessage sampleNeedle.id "hook boom") ∧
    hookEvents (find sampleEnv sampleConfig
      [(sampleNeedle, [⟨1, fun _ => .ok ()⟩, throwingHook, ⟨2, fun _ => .ok ()⟩])]
      sampleNeedle (some sampleParams)).2 =
      ([⟨1, fun _ => .ok ()⟩, throwingHook] : List Hook).map
        fun hk => Event.hookCall hk.hid sampleMatch :=
  find_hook_error_aborts_and_wraps sampleEnv sampleConfig
    [(sampleNeedle, [⟨1, fun _ => .ok ()⟩, throwingHook, ⟨2, fun _ => .ok ()⟩])]
    sampleNeedle (some sampleParams) sampleScreen sampleImage sampleMatch
    [⟨1, fun _ => .ok ()⟩] throwingHook [⟨2, fun _ => .ok ()⟩] "hook boom"
    (by decide) (by decide) (by decide) (by decide) rfl
    (by intro hk hmem; simp at hmem; rw [hmem]) rfl


/-- Per-call parameters selecting an invalid (negative-left) search region. -/
def invalidParams : OptionalSearchParameters := ⟨none, some ⟨.num (-1), 0, 100, 100⟩⟩

/-- C5 counterexample: for an invalid search region the screen provider IS
invoked before the validation failure: the failing find call's trace contains
the screenSize and grabScreenRegion calls, refuting the claim that no screen
provider call precedes the validation error. -/
theorem find_screen_calls_precede_validation_cex :
    (find sampleEnv sampleConfig [] sampleNeedle (some invalidParams)).2 =
      [Event.screenSizeCall, Event.grabScreenRegionCall ⟨.num (-1), 0, 100, 100⟩] ∧
    (find sampleEnv sampleConfig [] sampleNeedle (some invalidParams)).1 =
      .error (searchFailedMessage "needle"
        "Negative values in search region (-1, 0, 100, 100)") := by
  constructor
  · decide
  · decide

/-- C5 amended: for every invalid search region the validation error is
raised before any finder-provider call (no findMatch or findMatches event
occurs), but after the screen provider's screenSize and grabScreenRegion
calls, which are the only provider calls in the trace. -/
theorem find_validates_after_screen_before_finder (env : Env) (cfg : ScreenConfig)
    (st : FindHooks) (needle : FindInput) (params : Option OptionalSearchParameters)
    (S r : Region)
    (hS : env.screenSize = .ok S)
    (hr : effectiveSearchRegion params S = r)
    (hinv : r.left.lt 0 = true ∨ r.top.lt 0 = true ∨
      r.width.lt 0 = true ∨ r.height.lt 0 = true ∨
      r.left.isNaN = true ∨ r.top.isNaN = true ∨
      r.width.isNaN = true ∨ r.height.isNaN = true ∨
      r.width.lt 2 = true ∨ r.height.lt 2 = true ∨
      (r.left.add r.width).gt S.width = true ∨
      (r.top.add r.height).gt S.height = true) :
    (find env cfg st needle params).2 =
      [Event.screenSizeCall, Event.grabScreenRegionCall r] ∧
    (∀ req, Event.findMatchCall req ∉ (find env cfg st needle params).2 ∧
      Event.findMatchesCall req ∉ (find env cfg st needle params).2) ∧
    ∃ cause, (find env cfg st needle params).1 =
      .error (searchFailedMessage needle.id cause) := by
  subst hr
  have hv := validateSearchRegion_invalid (effectiveSearchRegion params S) S hinv
  obtain ⟨cause, hfind⟩ := find_invalid_region env cfg st needle params S hS hv
  refine ⟨by rw [hfind], ?_, ⟨cause, by rw [hfind]⟩⟩
  intro req
  constructor
  · intro hmem
    rw [hfind] at hmem
    simp at hmem
  · intro hmem
    rw [hfind] at hmem
    simp at hmem

/-- Witness for the amended C5 at the same concrete invalid region. -/
theorem find_validates_after_screen_before_finder_witness :
    (find sampleEnv sampleConfig [] sampleNeedle (some invalidParams)).2 =
      [Event.screenSizeCall, Event.grabScreenRegionCall ⟨.num (-1), 0, 100, 100⟩] ∧
    (∀ req, Event.findMatchCall req ∉
        (find sampleEnv sampleConfig [] sampleNeedle (some invalidParams)).2 ∧
      Event.findMatchesCall req ∉
        (find sampleEnv sampleConfig [] sampleNeedle (some invalidParams)).2) ∧
    ∃ cause, (find sampleEnv sampleConfig [] sampleNeedle (some invalidParams)).1 =
      .error (searchFailedMessage sampleNeedle.id cause) :=
  find_validates_after_screen_before_finder sampleEnv sampleConfig [] sampleNeedle
    (some invalidParams) sampleScreen ⟨.num (-1), 0, 100, 100⟩
    (by decide) (by decide) (by decide)


theorem hookEvents_cons_nonhook (e : Event) (t : List Event)
    (he : isHookEvent e = false) : hookEvents (e :: t) = hookEvents t := by
  simp [hookEvents, List.filter_cons, he]

theorem hookEvents_flatten_hookCalls (hooks : List Hook) (mrs : List MatchResult) :
    hookEvents ((hooks.map fun hk => mrs.map fun mr => Event.hookCall hk.hid mr).flatten) =
      (hooks.map fun hk => mrs.map fun mr => Event.hookCall hk.hid mr).flatten := by
  rw [hookEvents, List.filter_eq_self]
  intro e he
  simp only [List.mem_flatten, List.mem_map] at he
  obtain ⟨l, ⟨hk, hmem1, rfl⟩, he⟩ := he
  simp only [List.mem_map] at he
  obtain ⟨mr, hmem2, rfl⟩ := he
  rfl

theorem hookEvents_highlight_map (regs : List Region) (d o : JsNum) :
    hookEvents (regs.map fun r => Event.highlightCall r d o) = [] := by
  induction regs with
  | nil => simp [hookEvents]
  | cons hd tl ih =>
    rw [List.map_cons, hookEvents_cons_nonhook (Event.highlightCall hd d o) _ rfl, ih]

/-- A second match result for multi-result scenarios. -/
def sampleMatch2 : MatchResult := ⟨1, ⟨10, 20, 30, 40⟩⟩

/-- An environment whose finder reports two matches. -/
def multiEnv : Env :=
  ⟨.ok sampleScreen,
    fun _ => .ok sampleImage,
    fun _ => .ok sampleMatch,
    fun _ => .ok [sampleMatch, sampleMatch2],
    fun _ _ _ => .ok (),
    .ok sampleImage,
    fun _ _ => .ok ()⟩

/-- A hook that succeeds, tagged 1. -/
def okHookA : Hook := ⟨1, fun _ => .ok ()⟩

/-- A hook that succeeds, tagged 2. -/
def okHookB : Hook := ⟨2, fun _ => .ok ()⟩

/-- A registry with two hooks registered for the sample needle. -/
def twoHooksSt : FindHooks := [(sampleNeedle, [okHookA, okHookB])]

/-- C6: a successful find invokes every hook registered for the needle exactly
once, in registration order (the trace's hook events are exactly the
registered list, mapped in order over the single match result); a successful
findAll invokes every hook once per match result, hooks in registration
order, each hook awaited over every result before the next hook starts. -/
theorem hooks_invoked_once_in_order :
    (∀ env cfg st needle params reg trace,
      find env cfg st needle params = (.ok reg, trace) →
      ∃ S img mr,
        env.screenSize = .ok S ∧
        env.grabScreenRegion (effectiveSearchRegion params S) = .ok img ∧
        env.findMatch (createMatchRequest needle (effectiveSearchRegion params S)
          (effectiveConfidence params cfg) img) = .ok mr ∧
        hookEvents trace =
          ((getHooksForInput st needle).getD []).map fun hk =>
            Event.hookCall hk.hid mr) ∧
    (∀ env cfg st needle params regs trace,
      findAll env cfg st needle params = (.ok regs, trace) →
      ∃ S img mrs,
        env.screenSize = .ok S ∧
        env.grabScreenRegion (effectiveSearchRegion params S) = .ok img ∧
        env.findMatches (createMatchRequest needle (effectiveSearchRegion params S)
          (effectiveConfidence params cfg) img) = .ok mrs ∧
        hookEvents trace =
          (((getHooksForInput st needle).getD []).map fun hk =>
            mrs.map fun mr => Event.hookCall hk.hid mr).flatten ∧
        (hookEvents trace).length =
          ((getHooksForInput st needle).getD []).length * mrs.length) := by
  constructor
  · intro env cfg st needle params reg trace h
    obtain ⟨S, img, mr, ht, hS, hg, hv, hm, hrh, hreg, htr⟩ :=
      find_ok_elim env cfg st needle params reg trace h
    refine ⟨S, img, mr, hS, hg, hm, ?_⟩
    rw [htr, hookEvents_cons_nonhook Event.screenSizeCall _ rfl,
      hookEvents_cons_nonhook (Event.grabScreenRegionCall _) _ rfl,
      hookEvents_cons_nonhook (Event.findMatchCall _) _ rfl, hookEvents_append,
      runHooks_ok _ mr ht hrh, hookEvents_map_hookCall]
    have hz : hookEvents (if cfg.autoHighlight then
        [Event.highlightCall (translateLocation (effectiveSearchRegion params S) mr)
          cfg.highlightDurationMs cfg.highlightOpacity] else []) = [] := by
      cases cfg.autoHighlight
      · simp [hookEvents]
      · simp only [if_true]
        rw [hookEvents_cons_nonhook (Event.highlightCall _ _ _) _ rfl]
        simp [hookEvents]
    rw [hz, List.append_nil]
  · intro env cfg st needle params regs trace h
    obtain ⟨S, img, mrs, ht, hS, hg, hv, hm, hrh, hregs, htr⟩ :=
      findAll_ok_elim env cfg st needle params regs trace h
    have hflat : hookEvents trace =
        (((getHooksForInput st needle).getD []).map fun hk =>
          mrs.map fun mr => Event.hookCall hk.hid mr).flatten := by
      rw [htr, hookEvents_cons_nonhook Event.screenSizeCall _ rfl,
        hookEvents_cons_nonhook (Event.grabScreenRegionCall _) _ rfl,
        hookEvents_cons_nonhook (Event.findMatchesCall _) _ rfl, hookEvents_append,
        runHooksAll_ok _ mrs ht hrh, hookEvents_flatten_hookCalls]
      have hz : hookEvents (if cfg.autoHighlight then
          regs.map fun r => Event.highlightCall r cfg.highlightDurationMs
            cfg.highlightOpacity else []) = [] := by
        cases cfg.autoHighlight
        · simp [hookEvents]
        · simp only [if_true]
          exact hookEvents_highlight_map regs cfg.highlightDurationMs cfg.highlightOpacity
      rw [hz, List.append_nil]
    refine ⟨S, img, mrs, hS, hg, hm, hflat, ?_⟩
    rw [hflat]
    rw [List.length_flatten, List.map_map]
    have : (List.length ∘ fun hk : Hook => mrs.map fun mr => Event.hookCall hk.hid mr) =
        fun _ => mrs.length := by
      funext hk
      simp
    rw [this, List.map_const', List.sum_replicate, smul_eq_mul]

/-- Witness for C6: two registered hooks; find invokes each once in order,
findAll over two results invokes each hook once per result (4 invocations). -/
theorem hooks_invoked_once_in_order_witness :
    (∃ S img mr,
      sampleEnv.screenSize = .ok S ∧
      sampleEnv.grabScreenRegion (effectiveSearchRegion (some sampleParams) S) = .ok img ∧
      sampleEnv.findMatch (createMatchRequest sampleNeedle
        (effectiveSearchRegion (some sampleParams) S)
        (effectiveConfidence (some sampleParams) sampleConfig) img) = .ok mr ∧
      hookEvents [Event.screenSizeCall, Event.grabScreenRegionCall sampleSearchRegion,
          Event.findMatchCall ⟨sampleImage, sampleNeedle, 1⟩,
          Event.hookCall 1 sampleMatch, Event.hookCall 2 sampleMatch] =
        ((getHooksForInput twoHooksSt sampleNeedle).getD []).map fun hk =>
          Event.hookCall hk.hid mr) ∧
    (∃ S img mrs,
      multiEnv.screenSize = .ok S ∧
      multiEnv.grabScreenRegion (effectiveSearchRegion (some sampleParams) S) = .ok img ∧
      multiEnv.findMatches (createMatchRequest sampleNeedle
        (effectiveSearchRegion (some sampleParams) S)
        (effectiveConfidence (some sampleParams) sampleConfig) img) = .ok mrs ∧
      hookEvents [Event.screenSizeCall, Event.grabScreenRegionCall sampleSearchRegion,
          Event.findMatchesCall ⟨sampleImage, sampleNeedle, 1⟩,
          Event.hookCall 1 sampleMatch, Event.hookCall 1 sampleMatch2,
          Event.hookCall 2 sampleMatch, Event.hookCall 2 sampleMatch2] =
        (((getHooksForInput twoHooksSt sampleNeedle).getD []).map fun hk =>
          mrs.map fun mr => Event.hookCall hk.hid mr).flatten ∧
      (hookEvents [Event.screenSizeCall, Event.grabScreenRegionCall sampleSearchRegion,
          Event.findMatchesCall ⟨sampleImage, sampleNeedle, 1⟩,
          Event.hookCall 1 sampleMatch, Event.hookCall 1 sampleMatch2,
          Event.hookCall 2 sampleMatch, Event.hookCall 2 sampleMatch2]).length =
        ((getHooksForInput twoHooksSt sampleNeedle).getD []).length * mrs.length) :=
  ⟨(hooks_invoked_once_in_order).1 sampleEnv sampleConfig twoHooksSt sampleNeedle
      (some sampleParams) ⟨150, 300, 150, 200⟩
      [Event.screenSizeCall, Event.grabScreenRegionCall sampleSearchRegion,
        Event.findMatchCall ⟨sampleImage, sampleNeedle, 1⟩,
        Event.hookCall 1 sampleMatch, Event.hookCall 2 sampleMatch] (by decide),
    (hooks_invoked_once_in_order).2 multiEnv sampleConfig twoHooksSt sampleNeedle
      (some sampleParams) [⟨150, 300, 150, 200⟩, ⟨110, 220, 30, 40⟩]
      [Event.screenSizeCall, Event.grabScreenRegionCall sampleSearchRegion,
        Event.findMatchesCall ⟨sampleImage, sampleNeedle, 1⟩,
        Event.hookCall 1 sampleMatch, Event.hookCall 1 sampleMatch2,
        Event.hookCall 2 sampleMatch, Event.hookCall 2 sampleMatch2] (by decide)⟩


/-- C7: on appends the callback to the ordered list kept for the needle and
never replaces or drops earlier callbacks: a single registration appends to
the existing list; a registration sequence on a needle with no prior entry
stores exactly that sequence in order; entries of other needles are unchanged. -/
theorem on_appends_in_registration_order :
    (∀ st needle cb,
      lookupHooks («on» st needle cb) needle =
        some ((lookupHooks st needle).getD [] ++ [cb])) ∧
    (∀ st needle cbs, lookupHooks st needle = none → cbs ≠ [] →
      lookupHooks (registerAll st needle cbs) needle = some cbs) ∧
    (∀ st needle cbs m, m.oid ≠ needle.oid →
      lookupHooks (registerAll st needle cbs) m = lookupHooks st m) := by
  refine ⟨lookupHooks_on_self, ?_, ?_⟩
  · intro st needle cbs hnone hne
    cases cbs with
    | nil => exact absurd rfl hne
    | cons c rest =>
      rw [registerAll, List.foldl_cons]
      have h1 : lookupHooks («on» st needle c) needle = some [c] := by
        rw [lookupHooks_on_self, hnone]
        rfl
      have h2 := lookupHooks_registerAll_some rest («on» st needle c) needle [c] h1
      rw [registerAll] at h2
      rw [h2]
      rfl
  · intro st needle cbs m hne
    exact lookupHooks_registerAll_other cbs st needle m hne

/-- Witness for C7: two registrations on a fresh needle store exactly that
list, and a needle with a different identity is untouched. -/
theorem on_appends_in_registration_order_witness :
    lookupHooks (registerAll [] sampleNeedle [okHookA, okHookB]) sampleNeedle =
      some [okHookA, okHookB] ∧
    lookupHooks (registerAll [] sampleNeedle [okHookA, okHookB]) ⟨2, "needle"⟩ =
      lookupHooks [] ⟨2, "needle"⟩ :=
  ⟨(on_appends_in_registration_order).2.1 [] sampleNeedle [okHookA, okHookB]
      rfl (List.cons_ne_nil _ _),
    (on_appends_in_registration_order).2.2 [] sampleNeedle [okHookA, okHookB]
      ⟨2, "needle"⟩ (by decide)⟩

/-- C8: highlight resolves with the very same region it was given, after
invoking the screen provider's highlightScreenRegion with the configured
highlightDurationMs and highlightOpacity, regardless of the autoHighlight
flag (the flag is an arbitrary value of the config the call reads). -/
theorem highlight_returns_same_region (env : Env) (conf : JsNum) (autoH : Bool)
    (dur opac : JsNum) (rd : String) (r : Region)
    (hok : env.highlightScreenRegion r dur opac = .ok ()) :
    highlight env ⟨conf, autoH, dur, opac, rd⟩ r =
      (.ok r, [Event.highlightCall r dur opac]) := by
  simp [highlight, hok]

/-- Witness for C8 at a concrete region with auto-highlight enabled. -/
theorem highlight_returns_same_region_witness :
    highlight sampleEnv ⟨1, true, 500, 1, "."⟩ sampleLocation =
      (.ok sampleLocation, [Event.highlightCall sampleLocation 500 1]) :=
  highlight_returns_same_region sampleEnv 1 true 500 1 "." sampleLocation rfl

/-- C9: every successful capture or captureRegion performs exactly one image
writer store with the path generated as path/prefixNamePostfix.format and
returns exactly that path; with empty prefix and postfix the path equals
join of the target directory and file name plus the format extension. -/
theorem capture_stores_once_and_returns_path :
    (∀ env fileName fileFormat filePath pre post img,
      env.grabScreen = .ok img →
      env.store img (generateOutputPath fileName filePath pre post fileFormat) = .ok () →
      capture env fileName fileFormat filePath pre post =
        (.ok (generateOutputPath fileName filePath pre post fileFormat),
          [Event.grabScreenCall,
            Event.storeCall (generateOutputPath fileName filePath pre post fileFormat)])) ∧
    (∀ env fileName region fileFormat filePath pre post img,
      env.grabScreenRegion region = .ok img →
      env.store img (generateOutputPath fileName filePath pre post fileFormat) = .ok () →
      captureRegion env fileName region fileFormat filePath pre post =
        (.ok (generateOutputPath fileName filePath pre post fileFormat),
          [Event.grabScreenRegionCall region,
            Event.storeCall (generateOutputPath fileName filePath pre post fileFormat)])) ∧
    (∀ fileName filePath fileFormat,
      generateOutputPath fileName filePath "" "" fileFormat =
        join filePath fileName ++ "." ++ fileTypeExt fileFormat) := by
  refine ⟨?_, ?_, ?_⟩
  · intro env fileName fileFormat filePath pre post img hg hs
    simp [capture, saveImage, hg, hs]
  · intro env fileName region fileFormat filePath pre post img hg hs
    simp [captureRegion, saveImage, hg, hs]
  · intro fileName filePath fileFormat
    simp [generateOutputPath, join, String.append_assoc]

/-- Witness for C9: capturing to out/shot.png and out/region.png stores once
and returns the generated path. -/
theorem capture_stores_once_and_returns_path_witness :
    capture sampleEnv "shot" .png "out" "" "" =
      (.ok (generateOutputPath "shot" "out" "" "" .png),
        [Event.grabScreenCall, Event.storeCall (generateOutputPath "shot" "out" "" "" .png)]) ∧
    captureRegion sampleEnv "region" sampleSearchRegion .png "out" "" "" =
      (.ok (generateOutputPath "region" "out" "" "" .png),
        [Event.grabScreenRegionCall sampleSearchRegion,
          Event.storeCall (generateOutputPath "region" "out" "" "" .png)]) :=
  ⟨(capture_stores_once_and_returns_path).1 sampleEnv "shot" .png "out" "" ""
      sampleImage rfl rfl,
    (capture_stores_once_and_returns_path).2.1 sampleEnv "region" sampleSearchRegion
      .png "out" "" "" sampleImage rfl rfl⟩


theorem find_hookEvents_eq_findBody (env : Env) (cfg : ScreenConfig)
    (st : FindHooks) (needle : FindInput) (params : Option OptionalSearchParameters) :
    hookEvents (find env cfg st needle params).2 =
      hookEvents (findBody env cfg st needle params).2 := by
  rw [find]
  rcases hfb : findBody env cfg st needle params with ⟨res, t⟩
  cases res with
  | error e => rfl
  | ok r =>
    simp only []
    split
    · next hauto =>
      rcases hh : highlight env cfg r with ⟨resH, t4⟩
      have ht4 : t4 = [Event.highlightCall r cfg.highlightDurationMs cfg.highlightOpacity] := by
        have := highlight_trace env cfg r
        rw [hh] at this
        exact this
      simp only [ht4, hookEvents_append]
      rw [hookEvents_cons_nonhook (Event.highlightCall _ _ _) _ rfl]
      simp [hookEvents]
    · next hauto => rfl

theorem findAll_trace_eq_findAllBody_trace (env : Env) (cfg : ScreenConfig)
    (st : FindHooks) (needle : FindInput) (params : Option OptionalSearchParameters) :
    (findAll env cfg st needle params).2 = (findAllBody env cfg st needle params).2 := by
  rw [findAll]
  rcases findAllBody env cfg st needle params with ⟨res, t⟩
  cases res <;> rfl

theorem getFindParameters_error_elim (env : Env) (cfg : ScreenConfig)
    (params : Option OptionalSearchParameters) (e : String) (t : List Event)
    (h : getFindParameters env cfg params = (.error e, t)) :
    t = [Event.screenSizeCall] ∨
      ∃ r, t = [Event.screenSizeCall, Event.grabScreenRegionCall r] := by
  rw [getFindParameters] at h
  split at h
  · simp only [Prod.mk.injEq] at h
    exact Or.inl h.2.symm
  · next S hS =>
    simp only [] at h
    split at h
    · simp only [Prod.mk.injEq] at h
      exact Or.inr ⟨_, h.2.symm⟩
    · simp at h

theorem find_no_hooks_no_hook_events (env : Env) (cfg : ScreenConfig)
    (st : FindHooks) (needle : FindInput) (params : Option OptionalSearchParameters)
    (hnone : lookupHooks st needle = none) :
    hookEvents (find env cfg st needle params).2 = [] := by
  rw [find_hookEvents_eq_findBody]
  rcases hfb : findBody env cfg st needle params with ⟨res, t⟩
  rw [findBody] at hfb
  rcases hfp : getFindParameters env cfg params with ⟨resfp, t0⟩
  rw [hfp] at hfb
  cases resfp with
  | error e =>
    simp only [Prod.mk.injEq] at hfb
    rcases getFindParameters_error_elim env cfg params e t0 hfp with h0 | ⟨r0, h0⟩ <;>
      rw [← hfb.2, h0] <;> rfl
  | ok fp =>
    have ht0 := (getFindParameters_ok_elim env cfg params fp t0 hfp).2.2.2.2
    simp only [] at hfb
    split at hfb
    · simp only [Prod.mk.injEq] at hfb
      rw [← hfb.2, ht0]
      rfl
    · next u hv =>
      rw [getMatchResult] at hfb
      split at hfb
      · next e t2 hm =>
        simp only [Prod.mk.injEq] at hfb hm
        rw [← hfb.2, ht0, ← hm.2]
        rfl
      · next mr t2 hm =>
        simp only [Prod.mk.injEq] at hm
        have hhe : (getHooksForInput st needle).getD [] = [] := by
          rw [getHooksForInput, hnone]
          rfl
        rw [hhe] at hfb
        rw [show runHooks [] mr = ((.ok () : Except String Unit), ([] : List Event))
          from rfl] at hfb
        simp only [Prod.mk.injEq] at hfb
        rw [← hfb.2, ht0, ← hm.2]
        rfl

theorem findAll_no_hooks_no_hook_events (env : Env) (cfg : ScreenConfig)
    (st : FindHooks) (needle : FindInput) (params : Option OptionalSearchParameters)
    (hnone : lookupHooks st needle = none) :
    hookEvents (findAll env cfg st needle params).2 = [] := by
  rw [findAll_trace_eq_findAllBody_trace]
  rcases hfb : findAllBody env cfg st needle params with ⟨res, t⟩
  rw [findAllBody] at hfb
  rcases hfp : getFindParameters env cfg params with ⟨resfp, t0⟩
  rw [hfp] at hfb
  cases resfp with
  | error e =>
    simp only [Prod.mk.injEq] at hfb
    rcases getFindParameters_error_elim env cfg params e t0 hfp with h0 | ⟨r0, h0⟩ <;>
      rw [← hfb.2, h0] <;> rfl
  | ok fp =>
    have ht0 := (getFindParameters_ok_elim env cfg params fp t0 hfp).2.2.2.2
    simp only [] at hfb
    split at hfb
    · simp only [Prod.mk.injEq] at hfb
      rw [← hfb.2, ht0]
      rfl
    · next u hv =>
      rw [getMatchResults] at hfb
      split at hfb
      · next e t2 hm =>
        simp only [Prod.mk.injEq] at hfb hm
        rw [← hfb.2, ht0, ← hm.2]
        rfl
      · next mrs t2 hm =>
        simp only [Prod.mk.injEq] at hm
        have hhe : (getHooksForInput st needle).getD [] = [] := by
          rw [getHooksForInput, hnone]
          rfl
        rw [hhe] at hfb
        rw [show runHooksAll [] mrs = ((.ok () : Except String Unit), ([] : List Event))
          from rfl] at hfb
        split at hfb
        · next e3 t3 hcontra => exact absurd hcontra (by simp)
        · next u3 t3 hok =>
          simp only [Prod.mk.injEq, Except.ok.injEq] at hok
          obtain ⟨hu3, ht3⟩ := hok
          subst ht3
          split at hfb
          · next hauto =>
            simp only [Prod.mk.injEq] at hfb
            rw [← hfb.2, ht0, ← hm.2]
            have hhl : ∀ rg : Region, (highlight env cfg rg).2 =
                [Event.highlightCall rg cfg.highlightDurationMs cfg.highlightOpacity] :=
              highlight_trace env cfg
            simp only [hhl, flatten_singleton_map, List.append_nil]
            rw [hookEvents_append, hookEvents_append, hookEvents_highlight_map]
            rfl
          · next hauto =>
            simp only [Prod.mk.injEq] at hfb
            rw [← hfb.2, ht0, ← hm.2]
            rfl

theorem findBody_hooks_congr (env : Env) (cfg : ScreenConfig)
    (st1 st2 : FindHooks) (needle : FindInput)
    (params : Option OptionalSearchParameters)
    (h : getHooksForInput st1 needle = getHooksForInput st2 needle) :
    findBody env cfg st1 needle params = findBody env cfg st2 needle params := by
  rw [findBody, findBody, h]

theorem findAllBody_hooks_congr (env : Env) (cfg : ScreenConfig)
    (st1 st2 : FindHooks) (needle : FindInput)
    (params : Option OptionalSearchParameters)
    (h : getHooksForInput st1 needle = getHooksForInput st2 needle) :
    findAllBody env cfg st1 needle params = findAllBody env cfg st2 needle params := by
  rw [findAllBody, findAllBody, h]

/-- C10: hook lookup is keyed by the needle object identity, not by its id or
structural equality: for distinct needle objects n1 and n2 with identical
field values, a hook registered on n1 is invisible to find and findAll on n2;
the lookup for n2 stays empty, both calls on n2 are unchanged by the
registration, and their traces contain no hook invocation at all. -/
theorem hooks_keyed_by_object_identity (st : FindHooks) (n1 n2 : FindInput)
    (cb : Hook) (env : Env) (cfg : ScreenConfig)
    (params : Option OptionalSearchParameters)
    (hne : n1.oid ≠ n2.oid) (_hid : n1.id = n2.id)
    (hn2 : lookupHooks st n2 = none) :
    getHooksForInput («on» st n1 cb) n2 = none ∧
    find env cfg («on» st n1 cb) n2 params = find env cfg st n2 params ∧
    findAll env cfg («on» st n1 cb) n2 params = findAll env cfg st n2 params ∧
    hookEvents (find env cfg («on» st n1 cb) n2 params).2 = [] ∧
    hookEvents (findAll env cfg («on» st n1 cb) n2 params).2 = [] := by
  have hlook : lookupHooks («on» st n1 cb) n2 = none := by
    rw [lookupHooks_on_other st n1 n2 cb (Ne.symm hne)]
    exact hn2
  have hcong : getHooksForInput («on» st n1 cb) n2 = getHooksForInput st n2 := by
    rw [getHooksForInput, getHooksForInput, hlook, hn2]
  refine ⟨by rw [getHooksForInput, hlook], ?_, ?_, ?_, ?_⟩
  · rw [find, find, findBody_hooks_congr env cfg _ st n2 params hcong]
  · rw [findAll, findAll, findAllBody_hooks_congr env cfg _ st n2 params hcong]
  · exact find_no_hooks_no_hook_events env cfg _ n2 params hlook
  · exact findAll_no_hooks_no_hook_events env cfg _ n2 params hlook

/-- Witness for C10: two distinct needle objects with the same id field; the
hook registered on the first is never seen by calls on the second. -/
theorem hooks_keyed_by_object_identity_witness :
    getHooksForInput («on» [] sampleNeedle okHookA) ⟨2, "needle"⟩ = none ∧
    find sampleEnv sampleConfig («on» [] sampleNeedle okHookA) ⟨2, "needle"⟩
        (some sampleParams) =
      find sampleEnv sampleConfig [] ⟨2, "needle"⟩ (some sampleParams) ∧
    findAll sampleEnv sampleConfig («on» [] sampleNeedle okHookA) ⟨2, "needle"⟩
        (some sampleParams) =
      findAll sampleEnv sampleConfig [] ⟨2, "needle"⟩ (some sampleParams) ∧
    hookEvents (find sampleEnv sampleConfig («on» [] sampleNeedle okHookA)
      ⟨2, "needle"⟩ (some sampleParams)).2 = [] ∧
    hookEvents (findAll sampleEnv sampleConfig («on» [] sampleNeedle okHookA)
      ⟨2, "needle"⟩ (some sampleParams)).2 = [] :=
  hooks_keyed_by_object_identity [] sampleNeedle ⟨2, "needle"⟩ okHookA sampleEnv
    sampleConfig (some sampleParams) (by decide) rfl rfl

end NutJs
